import Mathlib

/-!
Verification development for the watch-market repository's core text pipeline:
the WhatsApp free-text listing extractor (`src/whatsapp_parser.py`), the
Bob's Watches variation classifier (`src/scrapers/bobs_watches.py`), and the
enhanced WhatsApp chat-export processor (`src/enhanced_whatsapp_processor.py`).

Python text is modelled as `List Char`; Python floats are modelled as `ℚ`
(every numeric literal appearing in the claims is exactly representable and
no comparison in this development is decided by a float rounding error);
fallible operations return `Option`.  The Python regexes used by the parser
are embedded via a small executable matcher (`RE` below) that reproduces the
semantics of the `re` fragment these patterns use: leftmost match, ordered
alternation, greedy character-class repetition with backtracking, one capture
group, negative lookahead on a character class.  All regexes in the embedded
code are compiled with `re.IGNORECASE`, so literal characters compare
case-insensitively.
-/

namespace WatchMarket

/-- ASCII apostrophe, built by code point to keep source text plain. -/
def apos : Char := Char.ofNat 39

/-- Python `\d` for the ASCII inputs handled here. -/
def isDig (c : Char) : Bool := 48 ≤ c.toNat ∧ c.toNat ≤ 57

/-- Python `\s`: space, tab, newline, carriage return, vertical tab, form feed. -/
def isPySpace (c : Char) : Bool :=
  c = ' ' ∨ c = Char.ofNat 9 ∨ c = Char.ofNat 10 ∨ c = Char.ofNat 13 ∨
  c = Char.ofNat 11 ∨ c = Char.ofNat 12

/-- The character class `[0-9,]` used by the price patterns. -/
def isDigComma (c : Char) : Bool := isDig c ∨ c = ','

/-- The character class `[\s-]` used by several model-name patterns. -/
def isPySpaceDash (c : Char) : Bool := isPySpace c ∨ c = '-'

/-- Case-insensitive character comparison (`re.IGNORECASE`). -/
def eqCI (c d : Char) : Bool := c.toLower = d.toLower

/-- Python `str.strip()` with no argument (whitespace at both ends). -/
def pyStrip (l : List Char) : List Char :=
  ((l.dropWhile isPySpace).reverse.dropWhile isPySpace).reverse

/-- Python substring test `needle in hay` (case-sensitive). -/
def isSubstr : List Char → List Char → Bool
  | n, [] => n.isEmpty
  | n, c :: t => n.isPrefixOf (c :: t) || isSubstr n t

/-- `isSubstr` on `String`s. -/
def isSubstrStr (n h : String) : Bool := isSubstr n.data h.data

/-- Python `str.lower()` (character-wise; every string this development
lowers is ASCII, where `Char.toLower` and Python agree).  Defined by
structural recursion over the character data so that it evaluates inside the
kernel. -/
def strLower (s : String) : String := String.mk (s.data.map Char.toLower)

/-- Python `sep.join(parts)`, by structural recursion over the parts. -/
def joinParts (sep : String) (ps : List String) : String :=
  String.mk (List.intercalate sep.data (ps.map (fun p => p.data)))

/-- Numeric value of a digit string. -/
def digitsToNat (l : List Char) : Nat := l.foldl (fun a c => a * 10 + (c.toNat - 48)) 0

/-- Python `float(s)` restricted to the strings the price pipeline can feed it:
digits with at most one decimal point (`"42000"`, `"15000.00"`, `".25"`,
`"42."`); everything else — in particular the empty string left after
stripping a comma-only match — raises `ValueError`, modelled as `none`. -/
def pyFloat? (s : List Char) : Option ℚ :=
  match s.splitOn '.' with
  | [w] => if w ≠ [] ∧ w.all isDig then some (digitsToNat w) else none
  | [w, f] =>
    if (w ≠ [] ∨ f ≠ []) ∧ w.all isDig ∧ f.all isDig then
      some ((digitsToNat w : ℚ) + (digitsToNat f : ℚ) / (10 ^ f.length))
    else none
  | _ => none

/-- Abstract syntax for the fragment of Python regexes used by the parser.
Repetition (`rep lo hi?`, with `none` meaning unbounded) is restricted to
character classes, which is all these patterns use; `grp` is the single
capture group each pattern carries; `nla` is the negative lookahead
`(?![class])`. -/
inductive RE where
  | eps : RE
  | lit : Char → RE
  | cls : (Char → Bool) → RE
  | seq : RE → RE → RE
  | alt : RE → RE → RE
  | opt : RE → RE
  | rep : (Char → Bool) → Nat → Option Nat → RE
  | grp : RE → RE
  | nla : (Char → Bool) → RE

/-- Literal string regex (a `seq` chain of case-insensitive literals). -/
def restr (s : String) : RE := s.data.foldr (fun c r => RE.seq (RE.lit c) r) RE.eps

/-- Greedy repetition driver: try `f top`, `f (top-1)`, …, `f lo` in order. -/
def tryRep {β : Type} (f : Nat → Option β) (lo : Nat) : Nat → Option β
  | 0 => if 0 < lo then none else f 0
  | t + 1 =>
    if t + 1 < lo then none
    else
      match f (t + 1) with
      | some r => some r
      | none => tryRep f lo t

/-- Backtracking matcher in continuation-passing style.  `matchC r s g k`
attempts to match `r` at the head of `s` with current capture `g`, calling
the continuation `k` on the remainder and capture; alternation prefers its
left branch, `opt` prefers presence, and repetition is greedy, exactly as in
Python's `re`. -/
def matchC {β : Type} : RE → List Char → Option (List Char) →
    (List Char → Option (List Char) → Option β) → Option β
  | RE.eps, s, g, k => k s g
  | RE.lit _, [], _, _ => none
  | RE.lit c, d :: s, g, k => if eqCI c d then k s g else none
  | RE.cls _, [], _, _ => none
  | RE.cls p, d :: s, g, k => if p d then k s g else none
  | RE.seq a b, s, g, k => matchC a s g (fun s' g' => matchC b s' g' k)
  | RE.alt a b, s, g, k =>
    match matchC a s g k with
    | some r => some r
    | none => matchC b s g k
  | RE.opt a, s, g, k =>
    match matchC a s g k with
    | some r => some r
    | none => k s g
  | RE.rep p lo hi, s, g, k =>
    let run := (s.takeWhile p).length
    tryRep (fun i => k (s.drop i) g) lo (min (hi.getD run) run)
  | RE.grp a, s, g, k =>
    matchC a s g (fun s' _ => k s' (some (s.take (s.length - s'.length))))
  | RE.nla _, [], g, k => k [] g
  | RE.nla p, d :: s, g, k => if p d then none else k (d :: s) g

/-- Match `r` at the very start of `s`, returning consumed length and the
capture group. -/
def matchHere (r : RE) (s : List Char) : Option (Nat × Option (List Char)) :=
  matchC r s none (fun rest g => some (s.length - rest.length, g))

/-- `re.finditer` semantics: scan left to right, emit non-overlapping matches
as `(start, length, group)`, resuming after each match.  `fuel` bounds the
number of scan steps (callers pass `length + 1`). -/
def scanAux (r : RE) : Nat → List Char → Nat → List (Nat × Nat × Option (List Char))
  | 0, _, _ => []
  | fuel + 1, s, pos =>
    match matchHere r s with
    | some (len, g) =>
      if len = 0 then
        match s with
        | [] => []
        | _ :: t => scanAux r fuel t (pos + 1)
      else (pos, len, g) :: scanAux r fuel (s.drop len) (pos + len)
    | none =>
      match s with
      | [] => []
      | _ :: t => scanAux r fuel t (pos + 1)

/-- All matches of `r` in `s` (the `re.finditer` / `re.findall` list). -/
def reScan (r : RE) (s : List Char) : List (Nat × Nat × Option (List Char)) :=
  scanAux r (s.length + 1) s 0

/-- `re.search` viewed as a Boolean: does `r` match anywhere in `s`? -/
def reSearch (r : RE) : List Char → Bool
  | [] => (matchHere r []).isSome
  | c :: t => (matchHere r (c :: t)).isSome || reSearch r t

/-- Chain a list of regexes in sequence. -/
def seqs (l : List RE) : RE := l.foldr RE.seq RE.eps

/-- `[\s]*` -/
def wsS : RE := RE.rep isPySpace 0 none

/-- `[\s]+` -/
def wsP : RE := RE.rep isPySpace 1 none

/-- `[\s-]*` -/
def wsdS : RE := RE.rep isPySpaceDash 0 none

/-- `(\d{4,6})` -/
def grp46 : RE := RE.grp (RE.rep isDig 4 (some 6))

/-- `(\d{4,5})` -/
def grp45 : RE := RE.grp (RE.rep isDig 4 (some 5))

/-- `([0-9,]+(?:\.[0-9]{2})?)` -/
def numGroup : RE :=
  RE.grp (RE.seq (RE.rep isDigComma 1 none)
    (RE.opt (seqs [RE.lit '.', RE.rep isDig 2 (some 2)])))

/-! ## WhatsAppWatchParser (`src/whatsapp_parser.py`) -/

/-- `WhatsAppWatchParser.price_patterns`, in source order. -/
def price_patterns : List RE := [
  seqs [RE.lit '$', numGroup],
  seqs [numGroup, wsS, restr "USD"],
  seqs [RE.grp (RE.rep isDig 1 none), RE.lit 'K', RE.nla isDig],
  seqs [RE.grp (RE.rep isDigComma 1 none), wsS, restr "dollar", RE.opt (RE.lit 's')],
  seqs [restr "USD", wsS, RE.grp (RE.rep isDigComma 1 none)],
  seqs [restr "asking", wsP, RE.opt (RE.lit '$'), RE.grp (RE.rep isDigComma 1 none),
    RE.opt (RE.lit 'K')],
  seqs [restr "budget", wsP, restr "around", wsP, RE.grp (RE.rep isDig 1 none), RE.lit 'K'],
  seqs [RE.lit '$', RE.grp (RE.rep isDig 1 none), RE.lit 'K']]

/-- One entry of `WhatsAppWatchParser.rolex_patterns`. -/
structure RolexPattern where
  re : RE
  brand : String
  model : Option String

/-- `Domino'?s` (the apostrophe is written by code point). -/
def dominoRE : RE := seqs [restr "Domino", RE.opt (RE.lit apos), RE.lit 's']

/-- The label string `Domino's`. -/
def dominoName : String := "Domino" ++ String.singleton apos ++ "s"

/-- `WhatsAppWatchParser.rolex_patterns`, in source order. -/
def rolex_patterns : List RolexPattern := [
  ⟨seqs [RE.alt (restr "Sub") (restr "Submariner"), wsS, grp46], "Rolex", some "Submariner"⟩,
  ⟨seqs [grp46, wsP, restr "Sub", RE.opt (restr "mariner")], "Rolex", some "Submariner"⟩,
  ⟨seqs [restr "GMT", wsdS, restr "Master", wsS, grp45], "Rolex", some "GMT-Master"⟩,
  ⟨seqs [grp45, wsP, restr "GMT"], "Rolex", some "GMT-Master"⟩,
  ⟨seqs [restr "Day", wsdS, restr "Date", wsS, grp46], "Rolex", some "Day-Date"⟩,
  ⟨seqs [restr "DD", wsS, grp46], "Rolex", some "Day-Date"⟩,
  ⟨seqs [grp46, wsP, restr "DD"], "Rolex", some "Day-Date"⟩,
  ⟨seqs [restr "Daytona", wsS, grp46], "Rolex", some "Daytona"⟩,
  ⟨seqs [grp46, wsP, restr "Daytona"], "Rolex", some "Daytona"⟩,
  ⟨seqs [restr "Explorer", wsS, grp45], "Rolex", some "Explorer"⟩,
  ⟨seqs [grp45, wsP, restr "Explorer"], "Rolex", some "Explorer"⟩,
  ⟨seqs [restr "Sea", wsdS, restr "Dweller", wsS, grp45], "Rolex", some "Sea-Dweller"⟩,
  ⟨seqs [grp45, wsP, restr "Sea", wsdS, restr "Dweller"], "Rolex", some "Sea-Dweller"⟩,
  ⟨seqs [restr "Yacht", wsdS, restr "Master", wsS, grp46], "Rolex", some "Yacht-Master"⟩,
  ⟨seqs [restr "YM", wsS, grp46], "Rolex", some "Yacht-Master"⟩,
  ⟨seqs [grp46, wsP, restr "YM"], "Rolex", some "Yacht-Master"⟩,
  ⟨seqs [restr "Air", wsdS, restr "King", wsS, grp45], "Rolex", some "Air-King"⟩,
  ⟨seqs [grp45, wsP, restr "Air", wsdS, restr "King"], "Rolex", some "Air-King"⟩,
  ⟨seqs [restr "Milgauss", wsS, grp46], "Rolex", some "Milgauss"⟩,
  ⟨seqs [grp46, wsP, restr "Milgauss"], "Rolex", some "Milgauss"⟩,
  ⟨seqs [restr "Domino", RE.opt (RE.lit apos), RE.lit 's', wsS, restr "Pizza", wsS, grp46],
    "Rolex", some "Oyster Perpetual"⟩,
  ⟨seqs [grp46, wsS, RE.alt dominoRE (restr "Pizza")], "Rolex", some "Oyster Perpetual"⟩,
  ⟨seqs [restr "Rolex", wsP, grp46], "Rolex", none⟩,
  ⟨seqs [grp46, wsP, restr "Rolex"], "Rolex", none⟩]

/-- `WhatsAppWatchParser.special_edition_patterns`, in source order. -/
def special_edition_patterns : List (RE × String) := [
  (RE.alt (restr "Tiffany") (RE.alt (restr "T&Co") (restr "Tiffany & Co")), "Tiffany & Co"),
  (RE.alt (restr "Tropical") (restr "Tropicalized"), "Tropical"),
  (RE.alt (restr "Spider") (restr "Spider dial"), "Spider"),
  (RE.alt (restr "COMEX") (restr "Comex"), "COMEX"),
  (RE.alt dominoRE (restr "Pizza"), dominoName),
  (RE.alt (restr "Military") (restr "Mil-Sub"), "Military"),
  (RE.alt (restr "Paul Newman") (restr "PN"), "Paul Newman"),
  (restr "Hulk", "Hulk"),
  (restr "Pepsi", "Pepsi"),
  (RE.alt (restr "Coke") (restr "Coca Cola"), "Coke"),
  (restr "Batman", "Batman"),
  (restr "Kermit", "Kermit"),
  (restr "Starbucks", "Starbucks"),
  (restr "Smurf", "Smurf")]

/-- `WhatsAppWatchParser.material_patterns`, in source order. -/
def material_patterns : List (RE × String) := [
  (RE.alt (seqs [restr "Yellow", wsP, restr "Gold"])
    (RE.alt (restr "YG") (seqs [restr "18K", wsS, RE.lit 'Y'])), "Yellow Gold"),
  (RE.alt (seqs [restr "White", wsP, restr "Gold"])
    (RE.alt (restr "WG") (seqs [restr "18K", wsS, RE.lit 'W'])), "White Gold"),
  (RE.alt (seqs [restr "Rose", wsP, restr "Gold"])
    (RE.alt (restr "RG") (seqs [restr "18K", wsS, RE.lit 'R'])), "Rose Gold"),
  (RE.alt (seqs [restr "Two", wsdS, restr "Tone"])
    (RE.alt (restr "TT") (seqs [restr "Bi", wsdS, restr "metal"])), "Two-Tone"),
  (RE.alt (restr "Steel") (RE.alt (restr "SS") (restr "Stainless")), "Steel"),
  (RE.alt (restr "Platinum") (RE.alt (restr "PT") (restr "950")), "Platinum"),
  (RE.alt (restr "Titanium") (restr "Ti"), "Titanium")]

/-- `WhatsAppWatchParser.dial_patterns`, in source order. -/
def dial_patterns : List (RE × String) := [
  (RE.alt (seqs [restr "Black", wsP, restr "dial"]) (seqs [restr "Black", wsP, restr "face"]),
    "Black"),
  (RE.alt (seqs [restr "Blue", wsP, restr "dial"]) (seqs [restr "Blue", wsP, restr "face"]),
    "Blue"),
  (RE.alt (seqs [restr "White", wsP, restr "dial"]) (seqs [restr "White", wsP, restr "face"]),
    "White"),
  (RE.alt (seqs [restr "Green", wsP, restr "dial"]) (seqs [restr "Green", wsP, restr "face"]),
    "Green"),
  (seqs [restr "Champagne", wsP, restr "dial"], "Champagne"),
  (seqs [restr "Silver", wsP, restr "dial"], "Silver"),
  (seqs [restr "Salmon", wsP, restr "dial"], "Salmon"),
  (seqs [restr "Meteorite", wsP, restr "dial"], "Meteorite"),
  (RE.alt (seqs [restr "Mother", wsP, restr "of", wsP, restr "pearl"]) (restr "MOP"),
    "Mother of Pearl")]

/-- The dataclass `WatchInfo`. -/
structure WatchInfo where
  brand : Option String := none
  model : Option String := none
  reference : Option String := none
  special_edition : Option String := none
  material : Option String := none
  dial_color : Option String := none
  confidence : ℚ := 0
deriving DecidableEq, Repr

/-- The dataclass `ParsedListing`. -/
structure ParsedListing where
  watch_info : WatchInfo
  price_usd : Option ℚ
  raw_message : List Char
  confidence : ℚ
  source_type : String := "wholesale"
  communication_type : String := "whatsapp_group"
deriving DecidableEq, Repr

/-- The per-match cleanup in `extract_prices`:
`match.replace(',', '').replace('K', '000')` followed by `float(...)` and the
band filter `1000 <= price <= 2000000` (values outside the band, and strings
`float` rejects, yield `none` and are skipped). -/
def priceOfGroup (g : List Char) : Option ℚ :=
  let cleaned := (g.filter (fun c => c ≠ ',')).flatMap
    (fun c => if c = 'K' then ['0', '0', '0'] else [c])
  (pyFloat? cleaned).bind (fun p => if 1000 ≤ p ∧ p ≤ 2000000 then some p else none)

/-- Order-preserving deduplication.  The source's `list(set(prices))` returns
the distinct prices in CPython hash-set order, which is implementation
defined; this embedding fixes first-discovery order, which agrees with
CPython on every concrete input evaluated in this development. -/
def dedupAux : List ℚ → List ℚ → List ℚ
  | [], _ => []
  | p :: t, seen => if p ∈ seen then dedupAux t seen else p :: dedupAux t (p :: seen)

/-- `WhatsAppWatchParser.extract_prices`. -/
def extract_prices (text : List Char) : List ℚ :=
  dedupAux (price_patterns.flatMap
    (fun r => (reScan r text).filterMap (fun m => m.2.2.bind priceOfGroup))) []

/-- First-match-wins scan of an ordered `(pattern, label)` table against a
context window, as in the three `re.search` loops of `extract_watch_details`. -/
def firstLabel (tbl : List (RE × String)) (ctx : List Char) : Option String :=
  (tbl.find? (fun pr => reSearch pr.1 ctx)).map (fun pr => pr.2)

/-- The Python slice `text[max(0, start-50) : min(len(text), end+50)]`
(`Nat` subtraction is already clamped at 0). -/
def contextWindow (text : List Char) (start len : Nat) : List Char :=
  (text.take (min text.length (start + len + 50))).drop (start - 50)

/-- The loop body of `extract_watch_details` for one regex match: build the
`WatchInfo` with base confidence `0.7 if model else 0.5`, then scan the
±50-character context window for special edition (+0.2), material (+0.1) and
dial color (+0.1), each first-match-wins. -/
def mkWatch (pt : RolexPattern) (text : List Char)
    (m : Nat × Nat × Option (List Char)) : WatchInfo :=
  let ctx := contextWindow text m.1 m.2.1
  let se := firstLabel special_edition_patterns ctx
  let mat := firstLabel material_patterns ctx
  let di := firstLabel dial_patterns ctx
  { brand := some pt.brand
    model := pt.model
    reference := m.2.2.map (fun g => String.mk g)
    special_edition := se
    material := mat
    dial_color := di
    confidence := (if pt.model.isSome then (7 : ℚ)/10 else 5/10) +
      (if se.isSome then 2/10 else 0) + (if mat.isSome then 1/10 else 0) +
      (if di.isSome then 1/10 else 0) }

/-- `WhatsAppWatchParser.extract_watch_details`. -/
def extract_watch_details (text : List Char) : List WatchInfo :=
  rolex_patterns.flatMap (fun pt => (reScan pt.re text).map (mkWatch pt text))

/-- Python `max(watches, key=lambda w: w.confidence)`: the first watch of
maximal confidence. -/
def maxByConfidence (w : WatchInfo) (ws : List WatchInfo) : WatchInfo :=
  ws.foldl (fun acc x => if acc.confidence < x.confidence then x else acc) w

/-- `WhatsAppWatchParser.match_price_to_watch`: exactly one watch and one
price → pair them; equal counts → `zip`; otherwise (both nonempty) → the
highest-confidence watch with the first price; empty watches or prices → no
pairs. -/
def match_price_to_watch (watches : List WatchInfo) (prices : List ℚ) :
    List (WatchInfo × ℚ) :=
  match watches, prices with
  | [], _ => []
  | _, [] => []
  | [w], [p] => [(w, p)]
  | w :: ws, p :: ps =>
    if (w :: ws).length = (p :: ps).length then (w :: ws).zip (p :: ps)
    else [(maxByConfidence w ws, p)]

/-- The suffix contributed by `watch_info.special_edition` in
`generate_comparison_key` (editions without a mapping contribute nothing). -/
def seSuffix : Option String → List String
  | none => []
  | some se =>
    let s := strLower se
    if s = "tiffany & co" then ["tiffany"]
    else if s = "tropical" then ["tropical"]
    else if s = "spider" then ["spider"]
    else if s = "comex" then ["comex"]
    else if s = strLower dominoName then ["dominos"]
    else if s = "hulk" then ["hulk"]
    else if s = "pepsi" then ["pepsi"]
    else if s = "batman" then ["batman"]
    else if s = "kermit" then ["kermit"]
    else []

/-- The suffix contributed by `watch_info.material` (substring test for
`'gold'`, then equality tests). -/
def matSuffix : Option String → List String
  | none => []
  | some m =>
    let s := strLower m
    if isSubstrStr "gold" s then ["gold"]
    else if s = "two-tone" then ["twotone"]
    else if s = "platinum" then ["platinum"]
    else []

/-- The suffix contributed by `watch_info.dial_color` (distinctive colors
only, with `'dial'` appended). -/
def dialSuffix : Option String → List String
  | none => []
  | some d =>
    let s := strLower d
    if s = "blue" ∨ s = "green" ∨ s = "black" ∨ s = "white" ∨ s = "champagne" then
      [s ++ "dial"]
    else []

/-- `WhatsAppWatchParser.generate_comparison_key`: `None` for a missing or
empty reference (Python `if not watch_info.reference`); otherwise the
reference plus the detected suffixes, `'standard'` when none was detected,
joined with `'-'` and lower-cased. -/
def generate_comparison_key (w : WatchInfo) : Option String :=
  match w.reference with
  | none => none
  | some r =>
    if r = "" then none
    else
      let parts := r :: (seSuffix w.special_edition ++ matSuffix w.material ++
        dialSuffix w.dial_color)
      let parts := if parts.length = 1 then parts ++ ["standard"] else parts
      some (strLower (joinParts "-" parts))

/-- `WhatsAppWatchParser.parse_message`.  The source guards
`if not message_text or len(message_text.strip()) < 10: return []` (an empty
string strips to length 0, so the single length test is equivalent), extracts
prices and watches, matches them, and emits one `ParsedListing` per pair with
a +0.1 confidence bonus for a truthy price in `[5000, 500000]`.  The source
also computes `generate_comparison_key(watch_info)` here and discards the
result without storing it on the listing; as that call has no effect it is
not repeated in this definition.  The body's `try/except` can only be reached
by logging errors, and every operation in this model is total. -/
def parse_message (message_text : List Char) : List ParsedListing :=
  if (pyStrip message_text).length < 10 then []
  else
    let prices := extract_prices message_text
    let watches := extract_watch_details message_text
    (match_price_to_watch watches prices).map (fun wp =>
      { watch_info := wp.1
        price_usd := some wp.2
        raw_message := message_text
        confidence := wp.1.confidence +
          (if wp.2 ≠ (0 : ℚ) ∧ (5000 : ℚ) ≤ wp.2 ∧ wp.2 ≤ (500000 : ℚ) then 1/10 else 0) })

/-! ## BobsWatchesScraper.detect_watch_variations (`src/scrapers/bobs_watches.py`) -/

/-- One entry of the ordered `variations` table in `detect_watch_variations`. -/
structure BobsVariation where
  keywords : List String
  dial_type : String
  special_edition : String
  suffix : String
deriving DecidableEq, Repr

/-- The lower-case keyword `domino's`. -/
def dominoKw : String := "domino" ++ String.singleton apos ++ "s"

/-- The label `Domino's Pizza`. -/
def dominoPizzaLabel : String := dominoName ++ " Pizza"

/-- The ordered `variations` table of `detect_watch_variations` (a Python
dict, iterated in insertion order): named historical variations first, then
materials, dial colors, bezel colors, and special dial configurations. -/
def bobs_variations : List BobsVariation := [
  ⟨["tiffany", "tiffany & co", "tiffany dial"], "Tiffany", "Tiffany & Co", "tiffany"⟩,
  ⟨["tropical", "tropical dial", "brown dial"], "Tropical", "Tropical Dial", "tropical"⟩,
  ⟨["spider", "spider dial", "cracked dial"], "Spider", "Spider Dial", "spider"⟩,
  ⟨["sigma", "sigma dial"], "Sigma", "Sigma Dial", "sigma"⟩,
  ⟨["comex", "comex dial"], "COMEX", "COMEX", "comex"⟩,
  ⟨["domino", dominoKw, "dominos"], "Dominos", dominoPizzaLabel, "dominos"⟩,
  ⟨["military", "mil-sub", "milsub"], "Military", "Military Submariner", "military"⟩,
  ⟨["kermit", "green bezel"], "Kermit", "Kermit (Green Bezel)", "kermit"⟩,
  ⟨["hulk", "green dial"], "Hulk", "Hulk (Green Dial)", "hulk"⟩,
  ⟨["yellow gold", "gold", "18k gold", "yellow-gold"], "Gold", "Yellow Gold", "gold"⟩,
  ⟨["two tone", "two-tone", "steel gold", "steel-gold"], "Two-Tone", "Steel & Gold",
    "twotone"⟩,
  ⟨["blue dial", "blue-dial", "blue face"], "Blue", "Blue Dial", "blue"⟩,
  ⟨["white dial", "white-dial", "white face", "white submariner", "white-submariner"],
    "White", "White Dial", "white"⟩,
  ⟨["red writing", "red-writing", "red text", "red submariner"], "Red Writing",
    "Red Writing", "red"⟩,
  ⟨["silver dial", "silver-dial", "silver face"], "Silver", "Silver Dial", "silver"⟩,
  ⟨["blue bezel", "blue-bezel"], "Blue Bezel", "Blue Bezel", "bluebezel"⟩,
  ⟨["green bezel", "green-bezel"], "Green Bezel", "Green Bezel", "greenbezel"⟩,
  ⟨["black bezel", "black-bezel"], "Black Bezel", "Black Bezel", "blackbezel"⟩,
  ⟨["slate serti", "slate-serti", "serti"], "Serti", "Slate Serti", "serti"⟩,
  ⟨["champagne dial", "champagne-dial", "champagne face"], "Champagne", "Champagne Dial",
    "champagne"⟩]

/-- Does a rule fire: `any(keyword in search_text for keyword in keywords)`. -/
def ruleHits (v : BobsVariation) (text : List Char) : Bool :=
  v.keywords.any (fun kw => isSubstr kw.data text)

/-- `search_text = f"{title} {url}".lower()` where `title` and `url` were
already lower-cased by their `.get(...).lower()` reads. -/
def bobs_search_text (title url : String) : List Char :=
  (strLower (strLower title ++ " " ++ strLower url)).data

/-- The first rule of the table that fires on the search text, if any. -/
def bobsDetected (text : List Char) : Option BobsVariation :=
  bobs_variations.find? (fun v => ruleHits v text)

/-- The detected suffix, defaulting to `standard`. -/
def bobsSuffixOf (text : List Char) : String :=
  ((bobsDetected text).map (fun v => v.suffix)).getD "standard"

/-- The fields of the listing dict that `detect_watch_variations` reads. -/
structure BobsListing where
  title : String := ""
  url : String := ""
  reference_number : Option String := none
deriving DecidableEq, Repr

/-- The fields that `detect_watch_variations` writes back onto the listing. -/
structure BobsVariationResult where
  dial_type : Option String
  special_edition : Option String
  comparison_key : String
deriving DecidableEq, Repr

/-- `BobsWatchesScraper.detect_watch_variations`: scan the ordered rule table
top-to-bottom, first rule with any keyword substring of the search text wins,
and assemble `comparison_key = f"{reference}-{detected_suffix}"` with
`reference = listing.get('reference_number', 'unknown')`. -/
def detect_watch_variations (l : BobsListing) : BobsVariationResult :=
  let text := bobs_search_text l.title l.url
  { dial_type := (bobsDetected text).map (fun v => v.dial_type)
    special_edition := (bobsDetected text).map (fun v => v.special_edition)
    comparison_key := (l.reference_number.getD "unknown") ++ "-" ++ bobsSuffixOf text }

/-- The spec's `classify(referenceNumber, searchText)` contract realized by
`detect_watch_variations` on a listing whose title is the search text. -/
def classify (referenceNumber searchText : String) : BobsVariationResult :=
  detect_watch_variations { title := searchText, url := "", reference_number := some referenceNumber }

/-! ## EnhancedWhatsAppProcessor.parse_chat_export
(`src/enhanced_whatsapp_processor.py`)

The regex `finditer` over the export file yields, per message, the five
captured groups `(date, time, dealer_name | phone_number, text)`; the loop
body then parses the timestamp with
`datetime.strptime(f"{date_str} {time_str}", "%m/%d/%Y %I:%M:%S %p")` after a
two-digit-year fixup, skipping the message with a logged warning on
`ValueError`.  The embedding takes the list of captured header groups as
input and models `strptime` by its documented validation (field ranges,
month lengths, leap years, 12-hour clock with AM/PM). -/

/-- A `datetime` value as produced by the chat-export timestamp parse. -/
structure PyTimestamp where
  year : Nat
  month : Nat
  day : Nat
  hour : Nat
  minute : Nat
  second : Nat
deriving DecidableEq, Repr

/-- Gregorian leap-year rule used by `datetime`. -/
def leapYear (y : Nat) : Bool := (y % 4 = 0 ∧ y % 100 ≠ 0) ∨ y % 400 = 0

/-- Number of days in a month. -/
def daysInMonth (y m : Nat) : Nat :=
  if m = 2 then (if leapYear y then 29 else 28)
  else if m = 4 ∨ m = 6 ∨ m = 9 ∨ m = 11 then 30
  else 31

/-- Parse a nonempty all-digit string. -/
def parseNat? (l : List Char) : Option Nat :=
  if l ≠ [] ∧ l.all isDig then some (digitsToNat l) else none

/-- The two-digit-year fixup before `strptime`: if the last `/`-separated
field of the date has two characters, prepend `"20"`. -/
def fixYear (date : String) : String :=
  let ps := date.data.splitOn '/'
  match ps.getLast? with
  | some y =>
    if y.length = 2 then String.mk (List.intercalate ['/'] (ps.dropLast ++ [['2', '0'] ++ y]))
    else date
  | none => date

/-- `strptime` on the `%m/%d/%Y` part: month, day and year fields of at most
2, 2 and 4 digits, month in 1–12, day in range for the month. -/
def parseDate? (date : String) : Option (Nat × Nat × Nat) :=
  match date.data.splitOn '/' with
  | [ms, ds, ys] =>
    match parseNat? ms, parseNat? ds, parseNat? ys with
    | some m, some d, some y =>
      if ms.length ≤ 2 ∧ ds.length ≤ 2 ∧ ys.length ≤ 4 ∧
          1 ≤ m ∧ m ≤ 12 ∧ 1 ≤ d ∧ d ≤ daysInMonth y m then
        some (m, d, y)
      else none
    | _, _, _ => none
  | _ => none

/-- `strptime` on the `%I:%M:%S %p` part (the captured time string includes
the AM/PM marker): 12-hour clock in 1–12, minutes 0–59, seconds 0–61, at
least one whitespace character before a case-insensitive AM/PM, converted to
a 24-hour clock. -/
def parseTime? (time : String) : Option (Nat × Nat × Nat) :=
  let l := time.data
  let hpart := l.takeWhile (fun c => ¬ isPySpace c)
  let rest := l.dropWhile (fun c => ¬ isPySpace c)
  let wsp := rest.takeWhile isPySpace
  let ampm := String.mk (rest.dropWhile isPySpace)
  if wsp = [] then none
  else
    match hpart.splitOn ':' with
    | [hs, mins, ss] =>
      match parseNat? hs, parseNat? mins, parseNat? ss with
      | some h, some mi, some s =>
        if hs.length ≤ 2 ∧ mins.length ≤ 2 ∧ ss.length ≤ 2 ∧
            1 ≤ h ∧ h ≤ 12 ∧ mi ≤ 59 ∧ s ≤ 61 then
          if strLower ampm = "am" then some ((if h = 12 then 0 else h), mi, s)
          else if strLower ampm = "pm" then some ((if h = 12 then 12 else h + 12), mi, s)
          else none
        else none
      | _, _, _ => none
    | _ => none

/-- The whole timestamp parse of the loop body: year fixup, then
`strptime(f"{date_str} {time_str}", "%m/%d/%Y %I:%M:%S %p")`; `none` models
the `ValueError` branch that logs a warning and `continue`s. -/
def parseTimestamp? (dateRaw timeRaw : String) : Option PyTimestamp :=
  match parseDate? (fixYear dateRaw), parseTime? timeRaw with
  | some (m, d, y), some (h, mi, s) => some ⟨y, m, d, h, mi, s⟩
  | _, _ => none

/-- Days in the proleptic Gregorian calendar before January 1 of `year`
(`datetime.toordinal` arithmetic). -/
def daysBeforeYear (y : Nat) : Nat :=
  365 * (y - 1) + (y - 1) / 4 - (y - 1) / 100 + (y - 1) / 400

/-- Days before the first of `month` in `year`. -/
def daysBeforeMonth (y m : Nat) : Nat :=
  (List.range (m - 1)).foldl (fun a i => a + daysInMonth y (i + 1)) 0

/-- Seconds represented by a timestamp, for `datetime` subtraction. -/
def tsSeconds (t : PyTimestamp) : Nat :=
  (daysBeforeYear t.year + daysBeforeMonth t.year t.month + t.day) * 86400 +
    t.hour * 3600 + t.minute * 60 + t.second

/-- `abs((timestamp - img_time).total_seconds())`. -/
def tsDiffSec (a b : PyTimestamp) : Nat :=
  max (tsSeconds a) (tsSeconds b) - min (tsSeconds a) (tsSeconds b)

/-- The five regex capture groups for one chat-export message header:
`(date, time, dealer_name?, phone_number?, raw text)`. -/
structure RawHeader where
  date : String
  time : String
  dealerName : Option String := none
  phoneNumber : Option String := none
  text : String
deriving DecidableEq, Repr

/-- The dataclass `DealerMessage`. -/
structure DealerMessage where
  timestamp : PyTimestamp
  dealer_name : String
  phone_number : Option String
  message_text : String
  has_image : Bool
  image_files : List String
deriving DecidableEq, Repr

/-- The WhatsApp `image omitted` marker, which begins with U+200E
(left-to-right mark). -/
def imageOmitted : String := String.singleton (Char.ofNat 8206) ++ "image omitted"

/-- Python `a or b or default` over optional strings (empty strings are
falsy). -/
def firstTruthy : List (Option String) → String → String
  | [], d => d
  | some s :: rest, d => if s = "" then firstTruthy rest d else s
  | none :: rest, d => firstTruthy rest d

/-- The loop body of `parse_chat_export` for one matched header: parse the
timestamp (skip the message on failure), strip the text, detect and
correlate images (within 30 minutes), skip empty or image-only messages, and
otherwise build the `DealerMessage`. -/
def processHeader (images : List (String × PyTimestamp)) (h : RawHeader) :
    Option DealerMessage :=
  match parseTimestamp? h.date h.time with
  | none => none
  | some ts =>
    let text := String.mk (pyStrip h.text.data)
    let hasImage := isSubstrStr imageOmitted text
    let correlated :=
      if hasImage then (images.filter (fun im => tsDiffSec ts im.2 ≤ 1800)).map (fun im => im.1)
      else []
    if text = "" ∨ text = imageOmitted then none
    else some ⟨ts, firstTruthy [h.dealerName, h.phoneNumber] "Unknown", h.phoneNumber,
      text, hasImage, correlated⟩

/-- `EnhancedWhatsAppProcessor.parse_chat_export` over the list of matched
message headers: process each header in order, keeping the messages that
survive and skipping the rest. -/
def parse_chat_export (images : List (String × PyTimestamp))
    (headers : List RawHeader) : List DealerMessage :=
  headers.filterMap (processHeader images)

/-! ## Auxiliary predicates used only to state properties -/

/-- Is `c` a lower-case ASCII letter? -/
def isLowerAlpha (c : Char) : Bool := 97 ≤ c.toNat ∧ c.toNat ≤ 122

/-- `s` contains no upper-case ASCII letter (what "lower-case" means for the
ASCII keys produced here). -/
def noUpper (s : String) : Bool :=
  s.data.all (fun c => ¬ (65 ≤ c.toNat ∧ c.toNat ≤ 90))

/-- The spec's key-format regex `^[a-z0-9]+-[a-z]+$` as an executable
predicate: exactly one `-`, a nonempty lower-case-alphanumeric reference
before it, a nonempty lower-case-alphabetic suffix after it. -/
def keyFormatOK (s : String) : Bool :=
  match s.data.splitOn '-' with
  | [a, b] => a ≠ [] ∧ a.all (fun c => isLowerAlpha c ∨ isDig c) ∧ b ≠ [] ∧ b.all isLowerAlpha
  | _ => false

/-- The closed set of suffix parts `generate_comparison_key` can append. -/
def whatsappSuffixes : List String :=
  ["tiffany", "tropical", "spider", "comex", "dominos", "hulk", "pepsi", "batman",
   "kermit", "gold", "twotone", "platinum", "bluedial", "greendial", "blackdial",
   "whitedial", "champagnedial", "standard"]

/-! ## Helper lemmas -/

theorem charOfNat_toNat (n : Nat) (h : n.isValidChar) : (Char.ofNat n).toNat = n := by
  have hlt : n < 1114112 := by
    rcases h with h1 | ⟨h2, h3⟩
    · omega
    · omega
  simp only [Char.ofNat, dif_pos h, Char.ofNatAux, Char.toNat]
  simp [UInt32.toNat, BitVec.toNat_ofNat]

theorem toLower_not_upper (c : Char) :
    ¬ (65 ≤ (Char.toLower c).toNat ∧ (Char.toLower c).toNat ≤ 90) := by
  by_cases h : c.toNat ≥ 65 ∧ c.toNat ≤ 90
  · have he : Char.toLower c = Char.ofNat (c.toNat + 32) := by
      simp [Char.toLower, h]
    have hv : (c.toNat + 32).isValidChar := Or.inl (by omega)
    rw [he, charOfNat_toNat _ hv]
    omega
  · have he : Char.toLower c = c := by
      simp only [Char.toLower]
      split
      · rename_i hcond
        exact absurd hcond h
      · rfl
    rw [he]
    omega

theorem noUpper_strLower (s : String) : noUpper (strLower s) = true := by
  simp only [noUpper, strLower, List.all_map]
  rw [List.all_eq_true]
  intro c _
  have h := toLower_not_upper c
  simp only [Function.comp_apply, decide_eq_true_eq]
  omega

theorem mem_of_mem_dedupAux : ∀ (l seen : List ℚ) (p : ℚ), p ∈ dedupAux l seen → p ∈ l
  | [], _, _, h => absurd h (by simp [dedupAux])
  | q :: t, seen, p, h => by
    unfold dedupAux at h
    split at h
    · exact List.mem_cons_of_mem q (mem_of_mem_dedupAux t seen p h)
    · rcases List.mem_cons.mp h with h1 | h1
      · exact h1 ▸ List.mem_cons_self q t
      · exact List.mem_cons_of_mem q (mem_of_mem_dedupAux t (q :: seen) p h1)

theorem priceOfGroup_band (g : List Char) (p : ℚ) (h : priceOfGroup g = some p) :
    1000 ≤ p ∧ p ≤ 2000000 := by
  unfold priceOfGroup at h
  rcases Option.bind_eq_some.mp h with ⟨q, _, hif⟩
  by_cases hband : 1000 ≤ q ∧ q ≤ 2000000
  · simp only [if_pos hband, Option.some.injEq] at hif
    exact hif ▸ hband
  · simp [if_neg hband] at hif

theorem extract_prices_band (t : List Char) (p : ℚ) (h : p ∈ extract_prices t) :
    1000 ≤ p ∧ p ≤ 2000000 := by
  unfold extract_prices at h
  have h2 := mem_of_mem_dedupAux _ _ _ h
  rcases List.mem_flatMap.mp h2 with ⟨r, _, hmem⟩
  rcases List.mem_filterMap.mp hmem with ⟨m, _, hsome⟩
  rcases Option.bind_eq_some.mp hsome with ⟨g, _, hpg⟩
  exact priceOfGroup_band g p hpg

theorem match_price_nil_left (ps : List ℚ) : match_price_to_watch [] ps = [] := by
  cases ps <;> rfl

theorem match_price_nil_right (ws : List WatchInfo) : match_price_to_watch ws [] = [] := by
  cases ws with
  | nil => rfl
  | cons w ws => cases ws <;> rfl

theorem findFirstOfHit {α : Type} (p : α → Bool) :
    ∀ (l : List α) (i : Nat) (hi : i < l.length), p (l.get ⟨i, hi⟩) = true →
    ∃ j, ∃ hj : j < l.length, j ≤ i ∧ p (l.get ⟨j, hj⟩) = true ∧
      l.find? p = some (l.get ⟨j, hj⟩) ∧ ∀ b ∈ l.take j, p b = false
  | [], i, hi, _ => absurd hi (by simp)
  | x :: xs, i, hi, hp => by
    cases hx : p x with
    | true =>
      exact ⟨0, by simp, Nat.zero_le i, by simpa using hx,
        by simp [List.find?_cons, hx], by simp⟩
    | false =>
      cases i with
      | zero =>
        rw [show (x :: xs).get ⟨0, hi⟩ = x from rfl] at hp
        exact absurd hp (by simp [hx])
      | succ i' =>
        have hi' : i' < xs.length := Nat.lt_of_succ_lt_succ hi
        have hp' : p (xs.get ⟨i', hi'⟩) = true := hp
        obtain ⟨j, hj, hle, hpj, hfind, hpre⟩ := findFirstOfHit p xs i' hi' hp'
        refine ⟨j + 1, Nat.succ_lt_succ hj, Nat.succ_le_succ hle, hpj, ?_, ?_⟩
        · simp [List.find?_cons, hx, hfind]
        · intro b hb
          rw [List.take_succ_cons] at hb
          rcases List.mem_cons.mp hb with h1 | h1
          · exact h1 ▸ hx
          · exact hpre b h1

/-! ## Claim theorems -/

attribute [local semireducible] Rat.add Rat.mul Rat.inv Rat.sub Rat.ofScientific

/-- Claim C4 (code bug): the spec says the trailing `K` multiplies by 1000,
so `extract("asking 42K for this Sub 116610")` should attach price 42000.0.
In the code, every price pattern leaves the `K` outside its capture group, so
`re.findall` yields `"42"`, the cleanup `replace('K', '000')` never fires (it
is dead code that proves the intent), the value parses as 42.0 and the band
filter discards it: no price and hence no candidate is emitted, even though
the watch itself is recognized. -/
theorem C4_k_suffix_never_expanded :
    extract_prices "asking 42K for this Sub 116610".data = [] ∧
    parse_message "asking 42K for this Sub 116610".data = [] ∧
    (extract_watch_details "asking 42K for this Sub 116610".data).map
      (fun w => w.reference) = [some "116610"] := by
  refine ⟨by decide, by decide, by decide⟩

/-- Claim C5: every price produced by Stage A lies in the closed band
[1000, 2000000]; `$999` is below the floor and `$2,500,000` above the
ceiling, so those messages attach no price (and yield no candidate), while
`$42,000` parses to 42000.0. -/
theorem C5_price_band :
    (∀ (t : List Char) (p : ℚ), p ∈ extract_prices t → 1000 ≤ p ∧ p ≤ 2000000) ∧
    extract_prices "Selling for $999".data = [] ∧
    extract_prices "Selling for $2,500,000".data = [] ∧
    extract_prices "Selling for $42,000".data = [42000] ∧
    parse_message "Selling for $999".data = [] ∧
    parse_message "Selling for $2,500,000".data = [] := by
  exact ⟨extract_prices_band, by decide, by decide, by decide, by decide, by decide⟩

theorem C5_price_band_witness :
    42000 ∈ extract_prices "Selling for $42,000".data ∧
    (1000 : ℚ) ≤ 42000 ∧ (42000 : ℚ) ≤ 2000000 :=
  ⟨by decide, C5_price_band.1 "Selling for $42,000".data 42000 (by decide)⟩

/-- Claim C8: `extract` is total (this model is a total function); the empty
message and a message with no watch entity both yield the empty list, and in
general a message in which entity extraction finds nothing yields the empty
list. -/
theorem C8_extract_total :
    parse_message "".data = [] ∧
    parse_message "hello, how are you?".data = [] ∧
    (∀ msg : List Char, extract_watch_details msg = [] → parse_message msg = []) := by
  refine ⟨by decide, by decide, ?_⟩
  intro msg h
  unfold parse_message
  split
  · rfl
  · simp only [h, match_price_nil_left, List.map_nil]

theorem C8_extract_total_witness :
    extract_watch_details "hello, how are you?".data = [] ∧
    parse_message "hello, how are you?".data = [] :=
  ⟨by decide, C8_extract_total.2.2 "hello, how are you?".data (by decide)⟩

/-- Claim C10: any message whose stripped text is shorter than 10 characters
is rejected by the guard at the top of `parse_message`, before price or
entity extraction, whatever its content. -/
theorem C10_short_message_guard :
    ∀ msg : List Char, (pyStrip msg).length < 10 → parse_message msg = [] := by
  intro msg h
  unfold parse_message
  rw [if_pos h]

theorem C10_short_message_guard_witness :
    (pyStrip "Sub 1680".data).length < 10 ∧ parse_message "Sub 1680".data = [] :=
  ⟨by decide, C10_short_message_guard "Sub 1680".data (by decide)⟩

theorem seSuffix_cases (o : Option String) :
    seSuffix o = [] ∨ ∃ s, seSuffix o = [s] ∧
      s ∈ (["tiffany", "tropical", "spider", "comex", "dominos", "hulk", "pepsi",
        "batman", "kermit"] : List String) := by
  cases o with
  | none => exact Or.inl rfl
  | some se =>
    simp only [seSuffix]
    split_ifs <;> first
      | exact Or.inl rfl
      | exact Or.inr ⟨_, rfl, by decide⟩

theorem matSuffix_cases (o : Option String) :
    matSuffix o = [] ∨ ∃ s, matSuffix o = [s] ∧
      s ∈ (["gold", "twotone", "platinum"] : List String) := by
  cases o with
  | none => exact Or.inl rfl
  | some m =>
    simp only [matSuffix]
    split_ifs <;> first
      | exact Or.inl rfl
      | exact Or.inr ⟨_, rfl, by decide⟩

theorem dialSuffix_cases (o : Option String) :
    dialSuffix o = [] ∨ ∃ s, dialSuffix o = [s] ∧
      s ∈ (["bluedial", "greendial", "blackdial", "whitedial", "champagnedial"] :
        List String) := by
  cases o with
  | none => exact Or.inl rfl
  | some d =>
    simp only [dialSuffix]
    split_ifs with h
    · rcases h with h | h | h | h | h <;> rw [h] <;> exact Or.inr ⟨_, rfl, by decide⟩
    · exact Or.inl rfl

theorem seSuffix_sub (o : Option String) : ∀ s ∈ seSuffix o, s ∈ whatsappSuffixes := by
  intro s hs
  rcases seSuffix_cases o with h | ⟨x, h, hx⟩
  · rw [h] at hs
    simp at hs
  · rw [h] at hs
    simp at hs
    subst hs
    exact (by decide : ∀ y ∈ (["tiffany", "tropical", "spider", "comex", "dominos",
      "hulk", "pepsi", "batman", "kermit"] : List String), y ∈ whatsappSuffixes) _ hx

theorem matSuffix_sub (o : Option String) : ∀ s ∈ matSuffix o, s ∈ whatsappSuffixes := by
  intro s hs
  rcases matSuffix_cases o with h | ⟨x, h, hx⟩
  · rw [h] at hs
    simp at hs
  · rw [h] at hs
    simp at hs
    subst hs
    exact (by decide : ∀ y ∈ (["gold", "twotone", "platinum"] : List String),
      y ∈ whatsappSuffixes) _ hx

theorem dialSuffix_sub (o : Option String) : ∀ s ∈ dialSuffix o, s ∈ whatsappSuffixes := by
  intro s hs
  rcases dialSuffix_cases o with h | ⟨x, h, hx⟩
  · rw [h] at hs
    simp at hs
  · rw [h] at hs
    simp at hs
    subst hs
    exact (by decide : ∀ y ∈ (["bluedial", "greendial", "blackdial", "whitedial",
      "champagnedial"] : List String), y ∈ whatsappSuffixes) _ hx

theorem seSuffix_len (o : Option String) : (seSuffix o).length ≤ 1 := by
  rcases seSuffix_cases o with h | ⟨x, h, _⟩ <;> simp [h]

theorem matSuffix_len (o : Option String) : (matSuffix o).length ≤ 1 := by
  rcases matSuffix_cases o with h | ⟨x, h, _⟩ <;> simp [h]

theorem dialSuffix_len (o : Option String) : (dialSuffix o).length ≤ 1 := by
  rcases dialSuffix_cases o with h | ⟨x, h, _⟩ <;> simp [h]

/-- Claim C1 (amended): the Bob's-scraper variation detector appends exactly
one suffix, drawn from its closed table plus `standard` (all nonempty and
lower-case alphabetic), to the reference as given — so that key is fully
lower-case only when the reference is.  The WhatsApp comparison-key
generator always lower-cases its whole output, but appends between one and
three `-`-joined suffixes from its own closed set: composite variations DO
stack there (special edition, material, dial color), so the single-suffix
regex `^[a-z0-9]+-[a-z]+$` holds only for its keys with exactly one detected
variation and a lower-case alphanumeric reference. -/
theorem C1_comparison_key_shape :
    (∀ l : BobsListing, ∃ sfx ∈ ("standard" :: bobs_variations.map (fun v => v.suffix)),
        (detect_watch_variations l).comparison_key =
          (l.reference_number.getD "unknown") ++ "-" ++ sfx) ∧
    (("standard" :: bobs_variations.map (fun v => v.suffix)).all
        (fun s => decide (s ≠ "") && s.data.all isLowerAlpha) = true) ∧
    (∀ (w : WatchInfo) (r : String), w.reference = some r → r ≠ "" →
        ∃ parts, generate_comparison_key w = some (strLower (joinParts "-" (r :: parts))) ∧
          1 ≤ parts.length ∧ parts.length ≤ 3 ∧ ∀ s ∈ parts, s ∈ whatsappSuffixes) ∧
    (∀ s : String, noUpper (strLower s) = true) := by
  refine ⟨?_, by decide, ?_, noUpper_strLower⟩
  · intro l
    unfold detect_watch_variations bobsSuffixOf
    cases hfind : bobsDetected (bobs_search_text l.title l.url) with
    | none => exact ⟨"standard", List.mem_cons_self _ _, by simp [hfind]⟩
    | some v =>
      refine ⟨v.suffix, ?_, by simp [hfind]⟩
      exact List.mem_cons_of_mem _ (List.mem_map.mpr
        ⟨v, List.mem_of_find?_eq_some hfind, rfl⟩)
  · intro w r hr hne
    unfold generate_comparison_key
    rw [hr]
    dsimp only
    rw [if_neg hne]
    by_cases hlen : (r :: (seSuffix w.special_edition ++ matSuffix w.material ++
        dialSuffix w.dial_color)).length = 1
    · have h0 : seSuffix w.special_edition ++ matSuffix w.material ++
          dialSuffix w.dial_color = [] :=
        List.eq_nil_of_length_eq_zero (by simpa using hlen)
      refine ⟨["standard"], ?_, by simp, by simp, ?_⟩
      · rw [if_pos hlen, h0]
        rfl
      · intro s hs
        simp at hs
        subst hs
        decide
    · refine ⟨seSuffix w.special_edition ++ matSuffix w.material ++
        dialSuffix w.dial_color, ?_, ?_, ?_, ?_⟩
      · rw [if_neg hlen]
      · have h0 : (seSuffix w.special_edition ++ matSuffix w.material ++
            dialSuffix w.dial_color).length ≠ 0 := by simpa using hlen
        omega
      · have h1 := seSuffix_len w.special_edition
        have h2 := matSuffix_len w.material
        have h3 := dialSuffix_len w.dial_color
        simp only [List.length_append]
        omega
      · intro s hs
        rcases List.mem_append.mp hs with hs | hs
        · rcases List.mem_append.mp hs with hs | hs
          · exact seSuffix_sub _ s hs
          · exact matSuffix_sub _ s hs
        · exact dialSuffix_sub _ s hs

theorem C1_comparison_key_shape_witness :
    (∃ sfx ∈ ("standard" :: bobs_variations.map (fun v => v.suffix)),
        (detect_watch_variations (BobsListing.mk "rolex submariner hulk 116610lv" ""
          (some "116610lv"))).comparison_key = "116610lv" ++ "-" ++ sfx) ∧
    (∃ parts, generate_comparison_key (WatchInfo.mk (some "Rolex") (some "Submariner")
        (some "1680") (some "Tiffany & Co") (some "Yellow Gold") none 1) =
        some (strLower (joinParts "-" ("1680" :: parts))) ∧
        1 ≤ parts.length ∧ parts.length ≤ 3 ∧ ∀ s ∈ parts, s ∈ whatsappSuffixes) :=
  ⟨C1_comparison_key_shape.1 _,
    C1_comparison_key_shape.2.2.1 _ "1680" rfl (by decide)⟩

/-- Claim C1 (counterexample): the claimed invariant — lower-case key with
exactly one suffix, matching `^[a-z0-9]+-[a-z]+$` — fails in both cores.  A
real extraction ("Sub 1680 Tiffany yellow gold for $42,000") produces a
watch carrying both a special edition and a material, and
`generate_comparison_key` stacks both suffixes: `"1680-tiffany-gold"`.  The
Bob's-scraper detector keeps the reference's case (references are captured
by `re.search(r'\b(\d{4,6}[A-Z]*)\b', name)`, upper-case letters included),
producing `"116610LN-standard"`, which is not lower-case. -/
theorem C1_counterexample :
    ((parse_message "Sub 1680 Tiffany yellow gold for $42,000".data).map
      (fun l => generate_comparison_key l.watch_info)) = [some "1680-tiffany-gold"] ∧
    keyFormatOK "1680-tiffany-gold" = false ∧
    (detect_watch_variations (BobsListing.mk "rolex submariner date 116610ln" ""
      (some "116610LN"))).comparison_key = "116610LN-standard" ∧
    noUpper "116610LN-standard" = false ∧
    keyFormatOK "116610LN-standard" = false := by
  exact ⟨by decide, by decide, by decide, by decide, by decide⟩

/-- Claim C2: the Bob's-scraper variation table is scanned top-to-bottom and
the first rule with any keyword substring of the lower-cased search text
wins; a text matching no rule yields `standard`.  On
`classify("1680", "yellow gold tiffany dial")` the tiffany rule (index 0)
beats the yellow-gold rule (index 9), which also fires, so the variation tag
is `tiffany`, not `gold` — named historical variations sit above material
and dial-color rules in the table. -/
theorem C2_first_match_wins :
    (∀ (text : List Char) (i : Nat) (hi : i < bobs_variations.length),
        ruleHits (bobs_variations.get ⟨i, hi⟩) text = true →
        ∃ j, ∃ hj : j < bobs_variations.length, j ≤ i ∧
          ruleHits (bobs_variations.get ⟨j, hj⟩) text = true ∧
          bobsDetected text = some (bobs_variations.get ⟨j, hj⟩) ∧
          ∀ v ∈ bobs_variations.take j, ruleHits v text = false) ∧
    (∀ text : List Char, (∀ v ∈ bobs_variations, ruleHits v text = false) →
        bobsSuffixOf text = "standard") ∧
    (classify "1680" "yellow gold tiffany dial").comparison_key = "1680-tiffany" ∧
    bobsSuffixOf (bobs_search_text "yellow gold tiffany dial" "") = "tiffany" ∧
    ruleHits (bobs_variations.get ⟨9, by decide⟩)
      (bobs_search_text "yellow gold tiffany dial" "") = true ∧
    (bobs_variations.get ⟨9, by decide⟩).suffix = "gold" := by
  refine ⟨?_, ?_, by decide, by decide, by decide, by decide⟩
  · intro text i hi h
    exact findFirstOfHit (fun v => ruleHits v text) bobs_variations i hi h
  · intro text h
    unfold bobsSuffixOf bobsDetected
    rw [List.find?_eq_none.mpr (fun v hv => by simp [h v hv])]
    rfl

theorem C2_first_match_wins_witness :
    (∃ j, ∃ hj : j < bobs_variations.length, j ≤ 9 ∧
        ruleHits (bobs_variations.get ⟨j, hj⟩)
          (bobs_search_text "yellow gold tiffany dial" "") = true ∧
        bobsDetected (bobs_search_text "yellow gold tiffany dial" "") =
          some (bobs_variations.get ⟨j, hj⟩) ∧
        ∀ v ∈ bobs_variations.take j,
          ruleHits v (bobs_search_text "yellow gold tiffany dial" "") = false) ∧
    bobsSuffixOf "plain oyster bracelet watch".data = "standard" :=
  ⟨C2_first_match_wins.1 (bobs_search_text "yellow gold tiffany dial" "") 9 (by decide)
      (by decide),
    C2_first_match_wins.2.1 "plain oyster bracelet watch".data (by decide)⟩

/-- Claim C3 (amended): `match_price_to_watch` implements the three-branch
policy exactly as claimed — one watch with one price pairs them, equal
nonzero counts pair positionally by `zip` (over the deduplicated price list),
mismatched counts pair the highest-confidence watch (Python `max`: the first
maximum) with the first price only, and with zero prices the chat-message
extractor emits nothing.  The claim's example message, however, yields only
ONE watch: "GMT 1675" matches no entity pattern (the GMT rules require
`GMT[-\s]*Master <ref>` or `<ref> GMT`), so `extract` takes the
mismatched-counts branch and emits a single candidate pairing 1680 with
30000 — not the claimed two positional pairs. -/
theorem C3_matching_policy :
    (∀ (w : WatchInfo) (p : ℚ), match_price_to_watch [w] [p] = [(w, p)]) ∧
    (∀ (ws : List WatchInfo) (ps : List ℚ), ws ≠ [] → ps ≠ [] → ws.length = ps.length →
        match_price_to_watch ws ps = ws.zip ps) ∧
    (∀ (w w2 : WatchInfo) (ws : List WatchInfo) (p : ℚ) (ps : List ℚ),
        (w :: w2 :: ws).length ≠ (p :: ps).length →
        match_price_to_watch (w :: w2 :: ws) (p :: ps) =
          [(maxByConfidence w (w2 :: ws), p)]) ∧
    (∀ (w : WatchInfo) (p p2 : ℚ) (ps : List ℚ),
        match_price_to_watch [w] (p :: p2 :: ps) = [(w, p)]) ∧
    (∀ msg : List Char, extract_prices msg = [] → parse_message msg = []) ∧
    ((parse_message "Sub 1680 $30000, GMT 1675 $18000".data).map
      (fun l => (l.watch_info.reference, l.price_usd)) = [(some "1680", some 30000)]) := by
  refine ⟨fun w p => rfl, ?_, ?_, ?_, ?_, by decide⟩
  · intro ws ps h1 h2 hlen
    rcases ws with _ | ⟨w, ws⟩
    · exact absurd rfl h1
    rcases ps with _ | ⟨p, ps⟩
    · exact absurd rfl h2
    rcases ws with _ | ⟨w2, ws⟩
    · rcases ps with _ | ⟨p2, ps⟩
      · rfl
      · simp at hlen
    · rcases ps with _ | ⟨p2, ps⟩
      · simp at hlen
      · show (if (w :: w2 :: ws).length = (p :: p2 :: ps).length then
            (w :: w2 :: ws).zip (p :: p2 :: ps)
          else [(maxByConfidence w (w2 :: ws), p)]) = (w :: w2 :: ws).zip (p :: p2 :: ps)
        exact if_pos hlen
  · intro w w2 ws p ps hne
    show (if (w :: w2 :: ws).length = (p :: ps).length then (w :: w2 :: ws).zip (p :: ps)
      else [(maxByConfidence w (w2 :: ws), p)]) = [(maxByConfidence w (w2 :: ws), p)]
    exact if_neg hne
  · intro w p p2 ps
    show (if ([w] : List WatchInfo).length = (p :: p2 :: ps).length then
        ([w] : List WatchInfo).zip (p :: p2 :: ps)
      else [(maxByConfidence w [], p)]) = [(w, p)]
    rw [if_neg (by simp)]
    rfl
  · intro msg h
    unfold parse_message
    split
    · rfl
    · simp only [h, match_price_nil_right, List.map_nil]

theorem C3_matching_policy_witness :
    (match_price_to_watch
        [WatchInfo.mk (some "Rolex") (some "Submariner") (some "1680") none none none (7/10),
         WatchInfo.mk (some "Rolex") (some "Daytona") (some "116520") none none none (9/10)]
        [20000, 30000] =
      ([WatchInfo.mk (some "Rolex") (some "Submariner") (some "1680") none none none (7/10),
        WatchInfo.mk (some "Rolex") (some "Daytona") (some "116520") none none none (9/10)].zip
        [20000, 30000])) ∧
    (match_price_to_watch
        [WatchInfo.mk (some "Rolex") (some "Submariner") (some "1680") none none none (7/10),
         WatchInfo.mk (some "Rolex") (some "Daytona") (some "116520") none none none (9/10)]
        [20000] =
      [(maxByConfidence
          (WatchInfo.mk (some "Rolex") (some "Submariner") (some "1680") none none none (7/10))
          [WatchInfo.mk (some "Rolex") (some "Daytona") (some "116520") none none none (9/10)],
        20000)]) ∧
    parse_message "Sub 1680 in the safe".data = [] :=
  ⟨C3_matching_policy.2.1 _ _ (by decide) (by decide) (by decide),
   C3_matching_policy.2.2.1 _ _ [] 20000 [] (by decide),
   C3_matching_policy.2.2.2.2.1 "Sub 1680 in the safe".data (by decide)⟩

/-- Claim C3 (counterexample): on the claim's own example message the code
does not produce two positionally-paired candidates; entity extraction finds
only the Submariner (both prices are extracted, in discovery order), so the
mismatched-counts branch fires and a single candidate pairs 1680 with 30000. -/
theorem C3_counterexample :
    (parse_message "Sub 1680 $30000, GMT 1675 $18000".data).map
        (fun l => (l.watch_info.reference, l.price_usd)) ≠
      [(some "1680", some 30000), (some "1675", some 18000)] ∧
    (extract_watch_details "Sub 1680 $30000, GMT 1675 $18000".data).length = 1 ∧
    extract_prices "Sub 1680 $30000, GMT 1675 $18000".data = [30000, 18000] := by
  have heq : (parse_message "Sub 1680 $30000, GMT 1675 $18000".data).map
      (fun l => (l.watch_info.reference, l.price_usd)) = [(some "1680", some 30000)] := by
    decide
  exact ⟨by rw [heq]; decide, by decide, by decide⟩

/-- Claim C6: attribute detection for each extracted watch reads only the
window 50 characters before and after the regex match — two matches whose
windows coincide get identical special-edition, material, dial and
confidence results — with first-match-wins tables and fixed bonuses.  In the
two-watch example the word "Tiffany" sits near only the Submariner match, so
only that watch carries the Tiffany tag (and its +0.2 bonus on the 0.7 base;
the +0.1 material bonus also fires on that watch because the material
table's `Titanium|Ti` abbreviation matches the substring `Ti` of "Tiffany"),
while the distant Daytona stays untagged at 0.7. -/
theorem C6_context_window_isolation :
    (∀ (pt : RolexPattern) (t1 t2 : List Char) (m1 m2 : Nat × Nat × Option (List Char)),
        contextWindow t1 m1.1 m1.2.1 = contextWindow t2 m2.1 m2.2.1 →
        (mkWatch pt t1 m1).special_edition = (mkWatch pt t2 m2).special_edition ∧
        (mkWatch pt t1 m1).material = (mkWatch pt t2 m2).material ∧
        (mkWatch pt t1 m1).dial_color = (mkWatch pt t2 m2).dial_color ∧
        (mkWatch pt t1 m1).confidence = (mkWatch pt t2 m2).confidence) ∧
    ((extract_watch_details "Sub 1680 Tiffany dial here and further down the line we find one more good watch a Daytona 116520 in box".data).map
        (fun w => (w.reference, w.special_edition, w.material, w.confidence)) =
      [(some "1680", some "Tiffany & Co", some "Titanium", 1),
       (some "116520", none, none, 7/10)]) := by
  refine ⟨?_, by decide⟩
  intro pt t1 t2 m1 m2 h
  simp only [mkWatch]
  rw [h]
  exact ⟨rfl, rfl, rfl, rfl⟩

theorem C6_context_window_isolation_witness :
    (mkWatch (RolexPattern.mk (seqs [RE.alt (restr "Sub") (restr "Submariner"), wsS, grp46])
        "Rolex" (some "Submariner")) "Sub 1680 Tiffany".data (0, 8, some "1680".data)).special_edition =
      (mkWatch (RolexPattern.mk (seqs [RE.alt (restr "Sub") (restr "Submariner"), wsS, grp46])
        "Rolex" (some "Submariner")) ("Sub 1680" ++ " Tiffany").data
        (0, 8, some "1680".data)).special_edition :=
  (C6_context_window_isolation.1 _ "Sub 1680 Tiffany".data ("Sub 1680" ++ " Tiffany").data
    (0, 8, some "1680".data) (0, 8, some "1680".data) (by decide)).1

/-- Claim C7: the confidence of every extracted watch is exactly the base
pattern score (0.7 model-qualified, 0.5 bare) plus the fixed context bonuses
(+0.2 special edition, +0.1 material, +0.1 dial color), the final candidate
confidence adds exactly the +0.1 plausible-price bonus, nothing is clamped,
and a fully-qualified match exceeds 1.0 (here 1.2). -/
theorem C7_confidence_additive :
    (∀ (t : List Char) (w : WatchInfo), w ∈ extract_watch_details t →
        ∃ pt ∈ rolex_patterns,
          w.confidence = (if pt.model.isSome then (7:ℚ)/10 else 5/10) +
            (if w.special_edition.isSome then 2/10 else 0) +
            (if w.material.isSome then 1/10 else 0) +
            (if w.dial_color.isSome then 1/10 else 0)) ∧
    (∀ (msg : List Char) (l : ParsedListing), l ∈ parse_message msg →
        ∃ p : ℚ, l.price_usd = some p ∧
          l.confidence = l.watch_info.confidence +
            (if p ≠ 0 ∧ 5000 ≤ p ∧ p ≤ 500000 then 1/10 else 0)) ∧
    ((parse_message "Sub 1680 Tiffany yellow gold black dial for $42,000".data).map
        (fun l => l.confidence) = [6/5]) ∧
    ((1 : ℚ) < 6/5) := by
  refine ⟨?_, ?_, by decide, by decide⟩
  · intro t w hw
    unfold extract_watch_details at hw
    rcases List.mem_flatMap.mp hw with ⟨pt, hpt, hmem⟩
    rcases List.mem_map.mp hmem with ⟨m, _, hm⟩
    refine ⟨pt, hpt, ?_⟩
    subst hm
    simp only [mkWatch]
  · intro msg l hl
    unfold parse_message at hl
    split at hl
    · exact absurd hl (by simp)
    · rcases List.mem_map.mp hl with ⟨wp, _, hwp⟩
      subst hwp
      exact ⟨wp.2, rfl, rfl⟩

theorem C7_confidence_additive_witness :
    (∃ pt ∈ rolex_patterns,
        (WatchInfo.mk (some "Rolex") (some "Submariner") (some "1680")
          (some "Tiffany & Co") (some "Titanium") none 1).confidence =
          (if pt.model.isSome then (7:ℚ)/10 else 5/10) +
          (if (WatchInfo.mk (some "Rolex") (some "Submariner") (some "1680")
            (some "Tiffany & Co") (some "Titanium") none 1).special_edition.isSome
            then 2/10 else 0) +
          (if (WatchInfo.mk (some "Rolex") (some "Submariner") (some "1680")
            (some "Tiffany & Co") (some "Titanium") none 1).material.isSome
            then 1/10 else 0) +
          (if (WatchInfo.mk (some "Rolex") (some "Submariner") (some "1680")
            (some "Tiffany & Co") (some "Titanium") none 1).dial_color.isSome
            then 1/10 else 0)) ∧
    (∃ p : ℚ, (ParsedListing.mk
        (WatchInfo.mk (some "Rolex") (some "Submariner") (some "1680")
          (some "Tiffany & Co") (some "Yellow Gold") (some "Black") (11/10))
        (some 42000) "Sub 1680 Tiffany yellow gold black dial for $42,000".data
        (6/5) "wholesale" "whatsapp_group").price_usd = some p ∧
      (ParsedListing.mk
        (WatchInfo.mk (some "Rolex") (some "Submariner") (some "1680")
          (some "Tiffany & Co") (some "Yellow Gold") (some "Black") (11/10))
        (some 42000) "Sub 1680 Tiffany yellow gold black dial for $42,000".data
        (6/5) "wholesale" "whatsapp_group").confidence =
        (ParsedListing.mk
          (WatchInfo.mk (some "Rolex") (some "Submariner") (some "1680")
            (some "Tiffany & Co") (some "Yellow Gold") (some "Black") (11/10))
          (some 42000) "Sub 1680 Tiffany yellow gold black dial for $42,000".data
          (6/5) "wholesale" "whatsapp_group").watch_info.confidence +
          (if p ≠ 0 ∧ 5000 ≤ p ∧ p ≤ 500000 then 1/10 else 0)) :=
  ⟨C7_confidence_additive.1 "Sub 1680 Tiffany".data
      (WatchInfo.mk (some "Rolex") (some "Submariner") (some "1680")
        (some "Tiffany & Co") (some "Titanium") none 1) (by decide),
   C7_confidence_additive.2.1 "Sub 1680 Tiffany yellow gold black dial for $42,000".data
      (ParsedListing.mk
        (WatchInfo.mk (some "Rolex") (some "Submariner") (some "1680")
          (some "Tiffany & Co") (some "Yellow Gold") (some "Black") (11/10))
        (some 42000) "Sub 1680 Tiffany yellow gold black dial for $42,000".data
        (6/5) "wholesale" "whatsapp_group") (by decide)⟩

/-- Claim C9: in the chat-export batch loop, a message whose timestamp fails
to parse (`strptime` raising `ValueError`, modelled as `none`) is skipped and
processing continues: the batch result is exactly the concatenation of the
results on the messages before and after it, and the loop never aborts (the
model is a total function). -/
theorem C9_malformed_timestamp_skipped :
    ∀ (imgs : List (String × PyTimestamp)) (pre : List RawHeader) (bad : RawHeader)
      (post : List RawHeader), parseTimestamp? bad.date bad.time = none →
      parse_chat_export imgs (pre ++ bad :: post) =
        parse_chat_export imgs pre ++ parse_chat_export imgs post := by
  intro imgs pre bad post h
  have hb : processHeader imgs bad = none := by
    unfold processHeader
    rw [h]
  unfold parse_chat_export
  rw [List.filterMap_append]
  congr 1
  rw [List.filterMap_cons, hb]

theorem C9_malformed_timestamp_skipped_witness :
    parseTimestamp? "13/45/25" "9:00:00 AM" = none ∧
    parse_chat_export []
        [RawHeader.mk "7/31/25" "5:20:16 AM" (some "Dealer A") none "Sub 1680 for sale",
         RawHeader.mk "13/45/25" "9:00:00 AM" (some "Bad") none "broken header",
         RawHeader.mk "8/1/25" "11:59:59 PM" none (some "+1 555") "GMT deal today"] =
      parse_chat_export []
          [RawHeader.mk "7/31/25" "5:20:16 AM" (some "Dealer A") none "Sub 1680 for sale"] ++
        parse_chat_export []
          [RawHeader.mk "8/1/25" "11:59:59 PM" none (some "+1 555") "GMT deal today"] :=
  ⟨by decide,
   C9_malformed_timestamp_skipped []
      [RawHeader.mk "7/31/25" "5:20:16 AM" (some "Dealer A") none "Sub 1680 for sale"]
      (RawHeader.mk "13/45/25" "9:00:00 AM" (some "Bad") none "broken header")
      [RawHeader.mk "8/1/25" "11:59:59 PM" none (some "+1 555") "GMT deal today"]
      (by decide)⟩

end WatchMarket
